import Mathlib

/-!
Verification development for the manifest-synchronization and
build-placement subsystem of a Godot/Rust CLI tool.

The Rust sources are embedded shallowly:
* `src/utils/config.rs` — the persisted manifest (`Config`) and its
  module/platform add/remove operations.
* `src/utils/file.rs` / `src/commands/create.rs` — the entry-point
  (`lib.rs`) insertion machinery (`get_insert_location`,
  `add_module_to_lib`), including a faithful model of the three regex
  patterns (`mod.*;`, `handle.*;`, `init.*\{`) the code uses.
* `src/commands/destroy.rs` / `src/commands.rs` — the line-filtering
  removal edit and the full create/destroy command pipelines.
* `src/build_utils.rs` / `src/commands/build.rs` — platform→toolchain
  resolution, native-vs-cross build dispatch, and the watch-loop
  debounce step.
* `src/gdnlib.rs` / `src/utils/gdnlib.rs` — the library-descriptor
  (gdnlib) entry/dependency maps.

External collaborators (the `convert_case` crate's case conversion and
Rust's `str::to_lowercase`, `str::lines`, `str::trim`) are modelled for
ASCII input, which is the only input the tool feeds them.  `rustfmt` is
modelled as the identity; no theorem below depends on formatting.
Process exit (`exit(1)`) is modelled as an error value that leaves the
persisted state unchanged, matching the fact that the process dies
before writing anything further.
-/

/-! ### Case conversion (model of the external `convert_case` crate, ASCII) -/

/-- Word-boundary delimiter characters used by the case converter. -/
def wordBreakChar (c : Char) : Bool := c == '_' || c == '-' || c == ' '

/-- Splits an ASCII identifier into words: at delimiters, at a
lower→upper transition, and before the last upper of an acronym run.
`cur` is the current word, reversed. -/
def splitWordsAux : List Char → List Char → List (List Char)
  | [], cur => if cur.isEmpty then [] else [cur.reverse]
  | c :: rest, cur =>
    if wordBreakChar c then
      if cur.isEmpty then splitWordsAux rest [] else cur.reverse :: splitWordsAux rest []
    else
      match cur with
      | [] => splitWordsAux rest [c]
      | p :: _ =>
        if p.isLower && c.isUpper then
          cur.reverse :: splitWordsAux rest [c]
        else if p.isUpper && c.isUpper && (match rest with | r :: _ => r.isLower | [] => false) then
          cur.reverse :: splitWordsAux rest [c]
        else
          splitWordsAux rest (c :: cur)

/-- Splits a string into case-boundary words. -/
def splitWords (s : String) : List (List Char) := splitWordsAux s.data []

/-- Lowercases one word. -/
def lowerWord (w : List Char) : List Char := w.map Char.toLower

/-- Uppercases the first letter of a word and lowercases the rest. -/
def capitalizeWord : List Char → List Char
  | [] => []
  | c :: rest => Char.toUpper c :: rest.map Char.toLower

/-- Joins words with a separator. -/
def joinWith (sep : List Char) : List (List Char) → List Char
  | [] => []
  | [w] => w
  | w :: ws => w ++ sep ++ joinWith sep ws

/-- Model of `name.to_case(Case::Snake)` from the `convert_case` crate. -/
def toSnakeCase (s : String) : String :=
  String.mk (joinWith ['_'] ((splitWords s).map lowerWord))

/-- Model of `name.to_case(Case::Pascal)` from the `convert_case` crate. -/
def toPascalCase (s : String) : String :=
  String.mk (joinWith [] ((splitWords s).map capitalizeWord))

/-- Model of Rust's `str::to_lowercase` on ASCII strings. -/
def rustToLowercase (s : String) : String := String.mk (s.data.map Char.toLower)

/-! ### The manifest (`Config`, from `src/utils/config.rs`) -/

/-- The structure of the `godot-rust-cli.json` configuration file
(`Config` in `src/utils/config.rs`). -/
structure Config where
  name : String
  cli_version : String
  godot_project_dir_name : String
  is_plugin : Bool
  platforms : List String
  modules : List String
deriving Repr, DecidableEq

/-- Error values standing for the `exit(1)` paths of the CLI.  The
process dies before saving, so an error leaves the persisted manifest
untouched. -/
inductive CliError where
  | notFound
  | alreadyExists
  | invalidTarget
deriving Repr, DecidableEq

/-- Decidable equality for command results, so that witnesses can be
checked by evaluation. -/
instance exceptDecidableEq {e a : Type} [DecidableEq e] [DecidableEq a] :
    DecidableEq (Except e a)
  | .ok x, .ok y =>
    if h : x = y then .isTrue (by rw [h])
    else .isFalse (by intro hh; injection hh; contradiction)
  | .ok _, .error _ => .isFalse (by intro h; exact Except.noConfusion h)
  | .error _, .ok _ => .isFalse (by intro h; exact Except.noConfusion h)
  | .error x, .error y =>
    if h : x = y then .isTrue (by rw [h])
    else .isFalse (by intro hh; injection hh; contradiction)

/-- `create_initial_config` from `src/utils/config.rs`: the manifest at
project-creation time (the `cli_version` env constant is irrelevant to
every claim and modelled as the empty string). -/
def create_initial_config (library_name godot_project_dir_name : String)
    (is_plugin : Bool) : Config :=
  { name := library_name
    cli_version := ""
    godot_project_dir_name := godot_project_dir_name
    is_plugin := is_plugin
    platforms := []
    modules := [] }

/-- `is_module_in_config` from `src/utils/config.rs`. -/
def is_module_in_config (module_name : String) (config : Config) : Bool :=
  config.modules.any (fun i => i == module_name)

/-- `add_module_to_config` from `src/utils/config.rs`: skips (without
error) the plugin-root module, whose snake-case name equals the library
name's snake case; otherwise appends and saves. -/
def add_module_to_config (module_name : String) (config : Config) : Config :=
  if config.is_plugin && (toSnakeCase module_name == toSnakeCase config.name) then
    config
  else
    { config with modules := config.modules ++ [module_name] }

/-- `remove_module_from_config_if_exists` from `src/utils/config.rs`:
exits with a not-found error if absent, otherwise removes the first
occurrence (`position` + `remove`). -/
def remove_module_from_config_if_exists (module_name : String) (config : Config) :
    Except CliError Config :=
  if !(is_module_in_config module_name config) then
    .error .notFound
  else
    let index := config.modules.findIdx (fun x => x == module_name)
    .ok { config with modules := config.modules.eraseIdx index }

/-- `is_platform_in_config` from `src/utils/config.rs`: a verbatim
comparison of the argument against the stored entries. -/
def is_platform_in_config (platform : String) (config : Config) : Bool :=
  config.platforms.any (fun i => i == platform)

/-- `add_platform_to_config` from `src/utils/config.rs`: lowercases the
argument, exits with an already-exists error on a duplicate, otherwise
appends the lowercased name and saves. -/
def add_platform_to_config (platform : String) (config : Config) :
    Except CliError Config :=
  let platform_lowercase := rustToLowercase platform
  if is_platform_in_config platform_lowercase config then
    .error .alreadyExists
  else
    .ok { config with platforms := config.platforms ++ [platform_lowercase] }

/-- `remove_platform_from_config_if_exists` from `src/utils/config.rs`:
lowercases the argument, exits with a not-found error if absent,
otherwise removes the first occurrence. -/
def remove_platform_from_config_if_exists (platform : String) (config : Config) :
    Except CliError Config :=
  let platform_lowercase := rustToLowercase platform
  if !(is_platform_in_config platform_lowercase config) then
    .error .notFound
  else
    let index := config.platforms.findIdx (fun x => x == platform_lowercase)
    .ok { config with platforms := config.platforms.eraseIdx index }

/-! ### Sequences of manifest operations -/

/-- One module mutation issued against the manifest. -/
inductive ModuleOp where
  | add (name : String)
  | remove (name : String)
deriving Repr, DecidableEq

/-- Applies one module op; a failed removal exits the process, leaving
the persisted manifest unchanged. -/
def applyModuleOp (config : Config) : ModuleOp → Config
  | .add name => add_module_to_config name config
  | .remove name =>
    match remove_module_from_config_if_exists name config with
    | .ok c => c
    | .error _ => config

/-- Applies a sequence of module ops. -/
def applyModuleOps (config : Config) (ops : List ModuleOp) : Config :=
  ops.foldl applyModuleOp config

/-- One platform mutation issued against the manifest. -/
inductive PlatformOp where
  | add (name : String)
  | remove (name : String)
deriving Repr, DecidableEq

/-- Applies one platform op; a failed op exits the process, leaving the
persisted manifest unchanged. -/
def applyPlatformOp (config : Config) : PlatformOp → Config
  | .add name =>
    match add_platform_to_config name config with
    | .ok c => c
    | .error _ => config
  | .remove name =>
    match remove_platform_from_config_if_exists name config with
    | .ok c => c
    | .error _ => config

/-- Applies a sequence of platform ops. -/
def applyPlatformOps (config : Config) (ops : List PlatformOp) : Config :=
  ops.foldl applyPlatformOp config

/-! ### Valid CLI platforms (`VALID_PLATFORMS`, `src/commands/platform.rs`
and `src/commands.rs`) -/

/-- The `VALID_PLATFORMS` static map: in this snapshot every entry but
`windows` is commented out. -/
def VALID_PLATFORMS : List (String × String) := [("windows", "x86_64-pc-windows-gnu")]

/-- `command_platform_add` from `src/commands.rs` (`add_platform` in
`src/commands/platform.rs` is identical): lowercases the argument,
rejects names outside `VALID_PLATFORMS` with `exit(1)`, otherwise
defers to `add_platform_to_config`. -/
def command_platform_add (platform : String) (config : Config) :
    Except CliError Config :=
  let platform_normalized := rustToLowercase platform
  if VALID_PLATFORMS.any (fun kv => kv.1 == platform_normalized) then
    add_platform_to_config platform_normalized config
  else
    .error .invalidTarget

/-! ### Build dispatch (`src/build_utils.rs` and `src/commands/build.rs`) -/

/-- The `PLATFORM_TOOLCHAINS` static table from `src/build_utils.rs`. -/
def PLATFORM_TOOLCHAINS : List (String × String) :=
  [ ("android.arm", "aarch64-linux-android")
  , ("android", "x86_64-linux-android")
  , ("windows", "x86_64-pc-windows-gnu")
  , ("linux", "x86_64-unknown-linux-gnu")
  , ("macos", "x86_64-apple-darwin") ]

/-- Table lookup (`PLATFORM_TOOLCHAINS.get(platform)`). -/
def lookupToolchain (platform : String) : Option String :=
  (PLATFORM_TOOLCHAINS.find? (fun kv => kv.1 == platform)).map (fun kv => kv.2)

/-- `get_platform_toolchain` from `src/commands/build.rs`: the same
table written as a `match`, defaulting to the empty string. -/
def get_platform_toolchain (platform : String) : String :=
  if rustToLowercase platform == "android.arm" then "aarch64-linux-android"
  else if rustToLowercase platform == "android" then "x86_64-linux-android"
  else if rustToLowercase platform == "windows" then "x86_64-pc-windows-gnu"
  else if rustToLowercase platform == "linux" then "x86_64-unknown-linux-gnu"
  else if rustToLowercase platform == "macos" then "x86_64-apple-darwin"
  else ""

/-- The one external build tool invoked by a `build_for_platform` call. -/
inductive BuildCommand where
  | cargoNative (release : Bool)
  | crossBuild (target : String) (release : Bool)
deriving Repr, DecidableEq

/-- `build_for_platform` from `src/build_utils.rs`, reduced to its
observable build-tool invocation: the toolchain is resolved first with
`.expect` (a table miss aborts before any build command, modelled as
`none`); then `cargo build --target <native>` runs when the platform
equals `consts::OS`, else `cross build --target <toolchain>`. -/
def build_for_platform (platform native_platform : String) (is_release : Bool) :
    Option BuildCommand :=
  match lookupToolchain platform with
  | none => none
  | some toolchain =>
    if platform == native_platform then
      some (.cargoNative is_release)
    else
      some (.crossBuild toolchain is_release)

/-- The private `build_for_platform` from `src/commands/build.rs`,
reduced to its build-tool invocation: `run_cargo_build_command` when the
platform equals `consts::OS`, else `run_cross_build_command` with
`get_platform_toolchain platform`. -/
def buildForPlatformCmd (platform native_platform : String) (is_release : Bool) :
    BuildCommand :=
  if platform == native_platform then
    .cargoNative is_release
  else
    .crossBuild (get_platform_toolchain platform) is_release

/-! ### Library descriptor (`Gdnlib`, from `src/gdnlib.rs` and
`src/utils/gdnlib.rs`) -/

/-- The base path used by both gdnlib constructors. -/
def gdnlibBasePath (rust_library_name : String) (is_plugin : Bool) : String :=
  if is_plugin then "res://addons/" ++ rust_library_name else "res:/"

/-- The `[entries]` map built by `Gdnlib::new` in `src/gdnlib.rs`,
keyed in insertion order. -/
def gdnlibNewEntries (rust_library_name : String) (is_plugin : Bool) :
    List (String × String) :=
  let base := gdnlibBasePath rust_library_name is_plugin
  [ ("OSX.64", base ++ "/gdnative/bin/macos/lib" ++ rust_library_name ++ ".dylib")
  , ("Windows.64", base ++ "/gdnative/bin/windows/" ++ rust_library_name ++ ".dll")
  , ("X11.64", base ++ "/gdnative/bin/linux/lib" ++ rust_library_name ++ ".so")
  , ("Android.arm64-v8a",
      base ++ "/gdnative/bin/android/aarch64-linux-android/lib" ++ rust_library_name ++ ".so")
  , ("Android.x86_64",
      base ++ "/gdnative/bin/android/x86_64-linux-android/lib" ++ rust_library_name ++ ".so") ]

/-- The `[dependencies]` map built by `Gdnlib::new` in `src/gdnlib.rs`. -/
def gdnlibNewDeps : List (String × List String) :=
  [ ("OSX.64", []), ("Windows.64", []), ("X11.64", [])
  , ("Android.arm64-v8a", []), ("Android.x86_64", []) ]

/-- The entries map built by `get_entries_and_dependencies_to_add_to_gdnlib`
in `src/utils/gdnlib.rs` (same strings, same key set). -/
def gdnlibEntries (library_name_snake_case : String) (is_plugin : Bool) :
    List (String × String) :=
  let base := gdnlibBasePath library_name_snake_case is_plugin
  [ ("OSX.64", base ++ "/gdnative/bin/macos/lib" ++ library_name_snake_case ++ ".dylib")
  , ("Windows.64", base ++ "/gdnative/bin/windows/" ++ library_name_snake_case ++ ".dll")
  , ("X11.64", base ++ "/gdnative/bin/linux/lib" ++ library_name_snake_case ++ ".so")
  , ("Android.arm64-v8a",
      base ++ "/gdnative/bin/android/aarch64-linux-android/lib" ++ library_name_snake_case ++ ".so")
  , ("Android.x86_64",
      base ++ "/gdnative/bin/android/x86_64-linux-android/lib" ++ library_name_snake_case ++ ".so") ]

/-- The dependencies map from `src/utils/gdnlib.rs`. -/
def gdnlibDeps : List (String × List String) :=
  [ ("OSX.64", []), ("Windows.64", []), ("X11.64", [])
  , ("Android.arm64-v8a", []), ("Android.x86_64", []) ]

/-- Splits a character list at every `'/'`; never returns `[]`. -/
def splitSlash : List Char → List (List Char)
  | [] => [[]]
  | c :: rest =>
    match splitSlash rest with
    | [] => []
    | h :: t => if c == '/' then [] :: h :: t else (c :: h) :: t

/-- The file-name component of a `res://…` path: the segment after the
last slash. -/
def fileNameOf (s : String) : String :=
  String.mk (((splitSlash s.data).getLast?).getD [])

/-! ### Watch-loop debounce step (`src/build_utils.rs`
`build_and_watch_for_changes`; `src/commands/build.rs`
`build_library_and_watch_for_changes` is identical) -/

/-- One iteration of the watch loop, for an event carrying a path.
Timestamps are wall-clock milliseconds (the loop always observes
`now ≥ last_checked`); `(now - last_checked).num_seconds() == 0` is the
guard the code places around the rebuild.  Returns whether a rebuild
runs and the new `last_checked`. -/
def watchStep (last_checked_ms now_ms : Nat) (is_write_op : Bool) : Bool × Nat :=
  if is_write_op then
    (((now_ms - last_checked_ms) / 1000 == 0), now_ms)
  else
    (false, last_checked_ms)

/-! ### Rust line primitives (`str::lines`, `str::trim`, `join("\n")`),
modelled on `List Char` for ASCII text -/

/-- Splits at every newline character; never returns `[]`. -/
def splitNl : List Char → List (List Char)
  | [] => [[]]
  | c :: rest =>
    match splitNl rest with
    | [] => []
    | h :: t => if c == '\n' then [] :: h :: t else (c :: h) :: t

/-- Drops one trailing carriage return, as `str::lines` does per line. -/
def stripCr (l : List Char) : List Char :=
  if l.getLast? == some '\r' then l.dropLast else l

/-- Drops the empty final piece produced by a trailing newline
(`split_terminator` semantics). -/
def dropTrailingEmpty (parts : List (List Char)) : List (List Char) :=
  if parts.getLast? == some ([] : List Char) then parts.dropLast else parts

/-- Model of Rust's `str::lines`: split at `'\n'` (terminator
semantics: no empty final piece), then strip one trailing `'\r'` from
each piece. -/
def rustLines (cs : List Char) : List (List Char) :=
  (dropTrailingEmpty (splitNl cs)).map stripCr

/-- Model of `Vec::join("\n")`. -/
def joinNl : List (List Char) → List Char
  | [] => []
  | [l] => l
  | l :: ls => l ++ '\n' :: joinNl ls

/-- Whitespace test matching Rust's `char::is_whitespace` on ASCII. -/
def isWsChar (c : Char) : Bool := c == ' ' || c == '\t' || c == '\r' || c == '\n'

/-- Trailing-whitespace trim. -/
def trimRight (l : List Char) : List Char := (l.reverse.dropWhile isWsChar).reverse

/-- Model of Rust's `str::trim` on ASCII text. -/
def trimChars (l : List Char) : List Char := (trimRight l).dropWhile isWsChar

/-! ### Entry-point removal edit (`remove_module_from_lib_file_and_save`
in `src/commands/destroy.rs`; `src/commands.rs` lines 436–457 are the
same filter pipeline) -/

/-- The declaration line searched for: `mod <snake>;`. -/
def modQuery (module_name_snake_case : String) : List Char :=
  ("mod " ++ module_name_snake_case ++ ";").data

/-- The plain registration line searched for. -/
def handleQuery (module_name_snake_case module_name_pascal_case : String) : List Char :=
  ("handle.add_class::<" ++ module_name_snake_case ++ "::"
    ++ module_name_pascal_case ++ ">();").data

/-- The tool/editor-class registration line searched for. -/
def toolHandleQuery (module_name_snake_case module_name_pascal_case : String) : List Char :=
  ("handle.add_tool_class::<" ++ module_name_snake_case ++ "::"
    ++ module_name_pascal_case ++ ">();").data

/-- The three-pass filter pipeline of the destroy edit: each pass takes
`lines()`, keeps every line whose trimmed content is not the query, and
rejoins with `"\n"`. -/
def removeLinesMatching (query : List Char) (cs : List Char) : List Char :=
  joinNl ((rustLines cs).filter (fun line => !(trimChars line == query)))

/-- `remove_module_from_lib_file_and_save`'s text transformation: the
`mod` line pass, then the plain-handle pass, then the tool-handle pass
(`rustfmt` afterwards is modelled as the identity). -/
def remove_module_from_lib (lib_contents : List Char)
    (module_name_snake_case module_name_pascal_case : String) : List Char :=
  let no_mod := removeLinesMatching (modQuery module_name_snake_case) lib_contents
  let no_handle :=
    removeLinesMatching (handleQuery module_name_snake_case module_name_pascal_case) no_mod
  removeLinesMatching (toolHandleQuery module_name_snake_case module_name_pascal_case) no_handle

/-! ### Regex patterns of the entry-point editor

The three patterns used by `add_module_to_lib` — `mod.*;`, `handle.*;`
and `init.*\{` — share one shape: a literal, then a greedy `.*`
(which cannot cross a newline), then one terminator character.  A match
starting at a position where the literal occurs therefore ends just
after the last terminator on that line; `find_iter` yields leftmost,
non-overlapping matches. -/

/-- One literal-dot-star-terminator pattern. -/
structure LinePattern where
  lit : List Char
  term : Char
deriving Repr, DecidableEq

/-- `mod.*;` -/
def modPattern : LinePattern := ⟨"mod".data, ';'⟩

/-- `handle.*;` -/
def handlePattern : LinePattern := ⟨"handle".data, ';'⟩

/-- `init.*\{` -/
def initPattern : LinePattern := ⟨"init".data, '{'⟩

/-- Does `lit` occur at offset `i` of `cs`? -/
def litAt (lit cs : List Char) (i : Nat) : Bool :=
  (cs.drop i).take lit.length == lit

/-- Number of characters from offset `i` to the next newline (or the
end of the text): the extent `.*` may cover. -/
def distToNewline : List Char → Nat
  | [] => 0
  | c :: rest => if c == '\n' then 0 else 1 + distToNewline rest

/-- Index (relative to the whole text) of the last occurrence of
`term` in `cs[lo..hi)`. -/
def lastTermIdx (cs : List Char) (lo hi : Nat) (term : Char) : Option Nat :=
  match (((cs.drop lo).take (hi - lo)).reverse).findIdx? (fun c => c == term) with
  | some k => some (hi - 1 - k)
  | none => none

/-- Greedy match of a pattern anchored at offset `i`: the end offset
(exclusive) of the match, if the literal occurs at `i` and the
terminator occurs later on the same line. -/
def matchAt (p : LinePattern) (cs : List Char) (i : Nat) : Option Nat :=
  if litAt p.lit cs i then
    let restStart := i + p.lit.length
    let le := restStart + distToNewline (cs.drop restStart)
    match lastTermIdx cs restStart le p.term with
    | some j => some (j + 1)
    | none => none
  else
    none

/-- Leftmost match at offset `≥ i` (fuelled scan over start offsets). -/
def findMatchFromAux (p : LinePattern) (cs : List Char) : Nat → Nat → Option (Nat × Nat)
  | 0, _ => none
  | fuel + 1, i =>
    match matchAt p cs i with
    | some e => some (i, e)
    | none => if cs.length ≤ i then none else findMatchFromAux p cs fuel (i + 1)

/-- Leftmost match at offset `≥ i`. -/
def findMatchFrom (p : LinePattern) (cs : List Char) (i : Nat) : Option (Nat × Nat) :=
  findMatchFromAux p cs (cs.length + 1 - i) i

/-- All matches, leftmost first and non-overlapping, scanning from
offset `i` (model of `Regex::find_iter`). -/
def findAllMatchesAux (p : LinePattern) (cs : List Char) : Nat → Nat → List (Nat × Nat)
  | 0, _ => []
  | fuel + 1, i =>
    match findMatchFrom p cs i with
    | none => []
    | some (s, e) => (s, e) :: findAllMatchesAux p cs fuel e

/-- All matches of the pattern in the text. -/
def findAllMatches (p : LinePattern) (cs : List Char) : List (Nat × Nat) :=
  findAllMatchesAux p cs (cs.length + 1) 0

/-! ### `get_insert_location` (`src/utils/file.rs`) and
`add_module_to_lib` (`src/commands/create.rs`) -/

/-- The `for line_match in line_regex.find_iter(..)` loop of
`get_insert_location`: with `is_first` set it returns at the first
match's end; otherwise it keeps overwriting the position with each
match's end, starting from 0. -/
def insertLoopPos : List (Nat × Nat) → Bool → Nat → Nat
  | [], _, pos => pos
  | m :: rest, is_first, _ =>
    if is_first then m.2 else insertLoopPos rest is_first m.2

/-- `get_insert_location` from `src/utils/file.rs`: runs the match loop
and returns the offset together with the untouched copy of the modules
list. -/
def get_insert_location (modules : List String) (lib_file_contents : List Char)
    (line_pattern : LinePattern) (is_first : Bool) : Nat × List String :=
  (insertLoopPos (findAllMatches line_pattern lib_file_contents) is_first 0, modules)

/-- `String::insert_str` at a char offset. -/
def insertStrAt (cs : List Char) (pos : Nat) (s : List Char) : List Char :=
  cs.take pos ++ s ++ cs.drop pos

/-- The declaration statement inserted for a module. -/
def modLineFor (module_name_snake_case : String) : List Char :=
  ("mod " ++ module_name_snake_case ++ ";").data

/-- The registration statement inserted for a module (tool form for
plugins, plain form otherwise). -/
def handleLineFor (module_name_snake_case module_name_pascal_case : String)
    (is_plugin : Bool) : List Char :=
  if is_plugin then toolHandleQuery module_name_snake_case module_name_pascal_case
  else handleQuery module_name_snake_case module_name_pascal_case

/-- `add_module_to_lib` from `src/commands/create.rs`: inserts the
`mod` line at `get_insert_location(modules, contents, "mod.*;", false)`;
then, on the updated contents, inserts the registration line at
`get_insert_location(.., "init.*\{", true)` when the manifest's modules
list is empty, else at `get_insert_location(.., "handle.*;", true)`
(`rustfmt` afterwards is modelled as the identity). -/
def add_module_to_lib (module_name_snake_case module_name_pascal_case : String)
    (config_modules : List String) (lib_contents : List Char) (is_plugin : Bool) :
    List Char :=
  let mod_insert_location := get_insert_location config_modules lib_contents modPattern false
  let contents1 := insertStrAt lib_contents mod_insert_location.1 (modLineFor module_name_snake_case)
  let handle_insert_location :=
    if config_modules.length == 0 then
      get_insert_location config_modules contents1 initPattern true
    else
      get_insert_location config_modules contents1 handlePattern true
  insertStrAt contents1 handle_insert_location.1
    (handleLineFor module_name_snake_case module_name_pascal_case is_plugin)

/-! ### Full create/destroy command pipelines (`src/commands.rs`) -/

/-- The slice of on-disk state the create/destroy commands touch:
the manifest, the entry-point text, the library's module source files
and the Godot project's descriptor (`.gdns`) files (as path sets). -/
structure ProjectState where
  config : Config
  libText : List Char
  srcFiles : List String
  godotFiles : List String
deriving Repr, DecidableEq

/-- Writing a file: an overwrite leaves one copy of the path. -/
def fsWrite (files : List String) (path : String) : List String :=
  if path ∈ files then files else path :: files

/-- Removing a file: the path is unique on a filesystem (and the
walkdir fallback in the source removes every file with the searched
name anyway). -/
def fsRemove (files : List String) (path : String) : List String :=
  files.filter (fun p => !(p == path))

/-- The path of a module's descriptor file inside the Godot project:
under `addons/<lib>/gdnative/` for plugins, else under `gdnative/`
(`command_create` / `command_destroy` in `src/commands.rs`). -/
def gdnsPath (config : Config) (module_name_snake_case : String) : String :=
  if config.is_plugin then
    "addons/" ++ toSnakeCase config.name ++ "/gdnative/" ++ module_name_snake_case ++ ".gdns"
  else
    "gdnative/" ++ module_name_snake_case ++ ".gdns"

/-- `command_create` from `src/commands.rs`: derives the snake/pascal
names, checks `is_module_in_config` (which only logs — the function
does not exit on a duplicate), writes the module source file, edits the
entry-point through `add_module_to_lib` (the operative
`src/commands/create.rs` algorithm; the scaffolding variant in
`src/utils/lib.rs` shares its `get_insert_location` logic), writes the
descriptor file, and finally appends the module to the manifest. -/
def command_create (name : String) (st : ProjectState) : ProjectState :=
  let module_name_snake_case := toSnakeCase name
  let module_name_pascal_case := toPascalCase name
  let config := st.config
  let srcFiles := fsWrite st.srcFiles ("src/" ++ module_name_snake_case ++ ".rs")
  let libText := add_module_to_lib module_name_snake_case module_name_pascal_case
    config.modules st.libText config.is_plugin
  let godotFiles := fsWrite st.godotFiles (gdnsPath config module_name_snake_case)
  { config := add_module_to_config name config
    libText := libText
    srcFiles := srcFiles
    godotFiles := godotFiles }

/-- `command_destroy` from `src/commands.rs`: removes the module from
the manifest by its pascal-case name (a miss exits the process before
anything else is touched), removes the descriptor file, filters the
module's lines out of the entry-point, and removes the module source
file. -/
def command_destroy (name : String) (st : ProjectState) :
    Except CliError ProjectState :=
  let module_name_snake_case := toSnakeCase name
  let module_name_pascal_case := toPascalCase name
  match remove_module_from_config_if_exists module_name_pascal_case st.config with
  | .error e => .error e
  | .ok config =>
    let godotFiles := fsRemove st.godotFiles (gdnsPath config module_name_snake_case)
    let libText := remove_module_from_lib st.libText
      module_name_snake_case module_name_pascal_case
    let srcFiles := fsRemove st.srcFiles ("src/" ++ module_name_snake_case ++ ".rs")
    .ok { config := config, libText := libText, srcFiles := srcFiles, godotFiles := godotFiles }

/-- `check_if_module_already_exists` from `src/commands/create.rs`: the
split-command generation's duplicate guard, which does `exit(1)` when
the pascal-case name is already in the manifest. -/
def check_if_module_already_exists (module_name : String)
    (config_modules : List String) : Except CliError Unit :=
  if config_modules.any (fun i => i == toPascalCase module_name) then
    .error .alreadyExists
  else
    .ok ()

/-! ### Sample data used by concrete witnesses -/

/-- The entry-point text generated by `command_new` for a fresh
library. -/
def sampleLibText : List Char :=
  "use gdnative::prelude::*;\nfn init(handle: InitHandle) {}\ngodot_init!(init);\n".data

/-- A manifest with one module already tracked. -/
def samplePlayerConfig : Config :=
  { name := "PlatformerModules"
    cli_version := ""
    godot_project_dir_name := "platformer"
    is_plugin := false
    platforms := []
    modules := ["Player"] }

/-- A project state with the module `Player` already created. -/
def samplePlayerState : ProjectState :=
  { config := samplePlayerConfig
    libText := ("use gdnative::prelude::*;\nmod player;\nfn init(handle: InitHandle) "
      ++ "\x7b\nhandle.add_class::<player::Player>();\n\x7d\ngodot_init!(init);\n").data
    srcFiles := ["src/player.rs"]
    godotFiles := ["gdnative/player.gdns"] }

/-- A fresh non-plugin project state. -/
def sampleFreshState : ProjectState :=
  { config := create_initial_config "PlatformerModules" "platformer" false
    libText := sampleLibText
    srcFiles := []
    godotFiles := [] }

/-! ## Claim theorems -/

/-- C3.  The claim says the watch loop rebuilds on every accepted
write event and rejects a request arriving within the same wall-clock
second as the previous rebuild.  The code's guard is inverted: with the
previous build at t=0 ms, a write event at t=5000 ms triggers no
rebuild, while a write event at t=200 ms (same second) does.  This
evaluates `watchStep`, the embedding of the event handler in
`build_and_watch_for_changes` (`src/build_utils.rs`), at both inputs. -/
theorem watchStep_inverted_debounce :
    (watchStep 0 5000 true).1 = false ∧ (watchStep 0 200 true).1 = true := by
  decide

/-- C5.  `command_create` (`src/commands.rs`) checks
`is_module_in_config` but only logs: creating `Player` over a manifest
already containing `Player` runs to completion and appends a duplicate
entry, while the split-generation guard
`check_if_module_already_exists` (`src/commands/create.rs`) exits with
the already-exists error as the claim describes. -/
theorem command_create_duplicate_not_rejected :
    (command_create "Player" samplePlayerState).config.modules = ["Player", "Player"] ∧
    is_module_in_config "Player" samplePlayerConfig = true ∧
    check_if_module_already_exists "Player" ["Player"] = .error .alreadyExists := by
  decide

/-- C6.  Adding the platform `linux` twice to a fresh manifest via
`add_platform_to_config` (`src/utils/config.rs`): the first call
succeeds and stores `linux`, the second fails with the already-exists
error, and the platforms list keeps length 1. -/
theorem add_platform_linux_twice :
    add_platform_to_config "linux" (create_initial_config "PlatformerModules" "platformer" false)
      = .ok { create_initial_config "PlatformerModules" "platformer" false with
                platforms := ["linux"] } ∧
    add_platform_to_config "linux"
        { create_initial_config "PlatformerModules" "platformer" false with
            platforms := ["linux"] }
      = .error .alreadyExists ∧
    ({ create_initial_config "PlatformerModules" "platformer" false with
        platforms := ["linux"] } : Config).platforms.length = 1 := by
  decide

/-- A platform found in the static toolchain table is one of its five
keys, with the matching triple. -/
theorem lookupToolchain_cases (platform t : String)
    (h : lookupToolchain platform = some t) :
    (platform = "android.arm" ∧ t = "aarch64-linux-android") ∨
    (platform = "android" ∧ t = "x86_64-linux-android") ∨
    (platform = "windows" ∧ t = "x86_64-pc-windows-gnu") ∨
    (platform = "linux" ∧ t = "x86_64-unknown-linux-gnu") ∨
    (platform = "macos" ∧ t = "x86_64-apple-darwin") := by
  by_cases h1 : platform = "android.arm"
  · subst h1
    rw [show lookupToolchain "android.arm" = some "aarch64-linux-android" from by decide] at h
    exact Or.inl ⟨rfl, (Option.some.inj h).symm⟩
  by_cases h2 : platform = "android"
  · subst h2
    rw [show lookupToolchain "android" = some "x86_64-linux-android" from by decide] at h
    exact Or.inr (Or.inl ⟨rfl, (Option.some.inj h).symm⟩)
  by_cases h3 : platform = "windows"
  · subst h3
    rw [show lookupToolchain "windows" = some "x86_64-pc-windows-gnu" from by decide] at h
    exact Or.inr (Or.inr (Or.inl ⟨rfl, (Option.some.inj h).symm⟩))
  by_cases h4 : platform = "linux"
  · subst h4
    rw [show lookupToolchain "linux" = some "x86_64-unknown-linux-gnu" from by decide] at h
    exact Or.inr (Or.inr (Or.inr (Or.inl ⟨rfl, (Option.some.inj h).symm⟩)))
  by_cases h5 : platform = "macos"
  · subst h5
    rw [show lookupToolchain "macos" = some "x86_64-apple-darwin" from by decide] at h
    exact Or.inr (Or.inr (Or.inr (Or.inr ⟨rfl, (Option.some.inj h).symm⟩)))
  exfalso
  have hnone : lookupToolchain platform = none := by
    simp [lookupToolchain, PLATFORM_TOOLCHAINS, List.find?_cons, beq_iff_eq,
      Ne.symm h1, Ne.symm h2, Ne.symm h3, Ne.symm h4, Ne.symm h5]
  rw [hnone] at h
  exact Option.noConfusion h

/-- `get_platform_toolchain` (the `match`-form table in
`src/commands/build.rs`) agrees with the static table on every key the
table holds. -/
theorem get_platform_toolchain_of_lookup (platform t : String)
    (h : lookupToolchain platform = some t) :
    get_platform_toolchain platform = t := by
  rcases lookupToolchain_cases platform t h with
    ⟨rfl, rfl⟩ | ⟨rfl, rfl⟩ | ⟨rfl, rfl⟩ | ⟨rfl, rfl⟩ | ⟨rfl, rfl⟩ <;> decide

/-- C7.  For every platform present in the static toolchain table:
building for the invoking machine's native platform runs only the local
cargo build command, and building for any other platform runs the
cross-toolchain command with exactly the triple the table resolves for
it — in both the `src/build_utils.rs` implementation (which aborts on a
table miss before invoking anything) and the `src/commands/build.rs`
implementation. -/
theorem build_for_platform_cross_iff (platform native t : String) (release : Bool)
    (h : lookupToolchain platform = some t) :
    (platform = native →
      build_for_platform platform native release = some (.cargoNative release) ∧
      buildForPlatformCmd platform native release = .cargoNative release) ∧
    (platform ≠ native →
      build_for_platform platform native release = some (.crossBuild t release) ∧
      buildForPlatformCmd platform native release = .crossBuild t release) := by
  have hg : get_platform_toolchain platform = t :=
    get_platform_toolchain_of_lookup platform t h
  constructor
  · intro he
    subst he
    constructor
    · simp [build_for_platform, h]
    · simp [buildForPlatformCmd]
  · intro hne
    constructor
    · simp [build_for_platform, h, beq_iff_eq, hne]
    · simp [buildForPlatformCmd, beq_iff_eq, hne, hg]

/-- C7 witness: the cross platform `windows` on a `linux` machine takes
the cross path with the table's triple. -/
theorem build_for_platform_cross_iff_witness :
    lookupToolchain "windows" = some "x86_64-pc-windows-gnu" ∧
    (("windows" : String) ≠ "linux" →
      build_for_platform "windows" "linux" false
        = some (.crossBuild "x86_64-pc-windows-gnu" false) ∧
      buildForPlatformCmd "windows" "linux" false
        = .crossBuild "x86_64-pc-windows-gnu" false) :=
  ⟨by decide,
   (build_for_platform_cross_iff "windows" "linux" "x86_64-pc-windows-gnu" false
      (by decide)).2⟩

/-- `splitSlash` never returns the empty list. -/
theorem splitSlash_ne_nil (cs : List Char) : splitSlash cs ≠ [] := by
  induction cs with
  | nil => simp [splitSlash]
  | cons c rest ih =>
    rcases hs : splitSlash rest with _ | ⟨h, t⟩
    · exact absurd hs ih
    · by_cases hc : c == '/'
      · simp [splitSlash, hs, hc]
      · simp [splitSlash, hs, hc]

/-- A slash-free list is one whole segment. -/
theorem splitSlash_no_slash (cs : List Char) (h : '/' ∉ cs) : splitSlash cs = [cs] := by
  induction cs with
  | nil => simp [splitSlash]
  | cons c rest ih =>
    have hc : ¬(c == '/') = true := by
      simp only [beq_iff_eq]
      intro hcc
      exact h (by rw [hcc]; exact List.mem_cons_self _ _)
    have hrest : '/' ∉ rest := fun hm => h (List.mem_cons_of_mem _ hm)
    simp [splitSlash, ih hrest, hc]

/-- A list containing a slash splits into at least two segments. -/
theorem splitSlash_length_of_mem (cs : List Char) (h : '/' ∈ cs) :
    2 ≤ (splitSlash cs).length := by
  induction cs with
  | nil => simp at h
  | cons c rest ih =>
    rcases hs : splitSlash rest with _ | ⟨x, t⟩
    · exact absurd hs (splitSlash_ne_nil rest)
    · by_cases hc : c == '/'
      · simp [splitSlash, hs, hc]
      · have hcne : ¬ c = '/' := by simpa using hc
        have hmem : '/' ∈ rest := by
          rcases List.mem_cons.mp h with hh | hh
          · exact absurd hh.symm hcne
          · exact hh
        have := ih hmem
        rw [hs] at this
        rcases t with _ | ⟨y, t2⟩
        · simp at this
        · simp [splitSlash, hs, hc]

/-- The last segment of `a ++ '/' :: b` is the last segment of `b`. -/
theorem getLast_splitSlash_append (a b : List Char) :
    (splitSlash (a ++ '/' :: b)).getLast? = (splitSlash b).getLast? := by
  induction a with
  | nil =>
    rcases hsb : splitSlash b with _ | ⟨h, t⟩
    · exact absurd hsb (splitSlash_ne_nil b)
    · simp [splitSlash, hsb]
  | cons c a ih =>
    rcases hs : splitSlash (a ++ '/' :: b) with _ | ⟨h, t⟩
    · exact absurd hs (splitSlash_ne_nil _)
    · have hlen : 2 ≤ (splitSlash (a ++ '/' :: b)).length :=
        splitSlash_length_of_mem _ (by simp)
      rw [hs] at hlen
      rcases t with _ | ⟨x, t2⟩
      · simp at hlen
      · rw [hs] at ih
        by_cases hc : (c == '/') = true
        · show (splitSlash (c :: (a ++ '/' :: b))).getLast? = _
          simp only [splitSlash, hs, hc, if_true, List.getLast?_cons_cons]
          simpa [List.getLast?_cons_cons] using ih
        · have hc2 : (c == '/') = false := by simpa using hc
          show (splitSlash (c :: (a ++ '/' :: b))).getLast? = _
          simp only [splitSlash, hs, hc2, Bool.false_eq_true, if_false,
            List.getLast?_cons_cons]
          simpa [List.getLast?_cons_cons] using ih

/-- The file name of a path whose final segment is slash-free. -/
theorem fileNameOf_path (p : String) (dir fname : List Char)
    (hp : p.data = dir ++ '/' :: fname) (hf : '/' ∉ fname) :
    fileNameOf p = String.mk fname := by
  unfold fileNameOf
  rw [hp, getLast_splitSlash_append, splitSlash_no_slash fname hf]
  rfl

/-- The file name of a gdnlib entry value of shape
`base ++ litWhole ++ name ++ suffix`, where the literal text `litWhole`
is `litDir` (possibly containing slashes), one slash, and the slash-free
binary-name prefix `litPre`. -/
theorem gdnlib_value_fileName (base litWhole litDir litPre suffix name : String)
    (hsplit : litWhole.data = litDir.data ++ '/' :: litPre.data)
    (hname : '/' ∉ name.data) (hpre : '/' ∉ litPre.data) (hsuf : '/' ∉ suffix.data) :
    fileNameOf (base ++ litWhole ++ name ++ suffix) = litPre ++ name ++ suffix := by
  have hf : '/' ∉ litPre.data ++ (name.data ++ suffix.data) := by
    intro hmem
    rcases List.mem_append.mp hmem with hm | hm
    · exact hpre hm
    · rcases List.mem_append.mp hm with hm2 | hm2
      · exact hname hm2
      · exact hsuf hm2
  have hp : (base ++ litWhole ++ name ++ suffix).data
      = (base.data ++ litDir.data) ++ '/' :: (litPre.data ++ (name.data ++ suffix.data)) := by
    simp only [String.data_append, hsplit]
    simp [List.append_assoc]
  have hres := fileNameOf_path (base ++ litWhole ++ name ++ suffix) _ _ hp hf
  rw [hres]
  apply String.ext
  simp [String.data_append]

/-- Prepending the empty string is the identity. -/
theorem empty_string_append (s : String) : "" ++ s = s := by
  apply String.ext
  simp [String.data_append]

/-- C8.  Both library-descriptor constructors (`Gdnlib::new` in
`src/gdnlib.rs` and `get_entries_and_dependencies_to_add_to_gdnlib` in
`src/utils/gdnlib.rs`) write the identical map of exactly five platform
entries — three desktop (`OSX.64`, `Windows.64`, `X11.64`) and two
mobile (`Android.arm64-v8a`, `Android.x86_64`) — for every library name
and plugin flag, i.e. regardless of which platforms were built; the
Windows binary file name is the bare name with the `.dll` suffix, every
other entry carries the shared `lib` prefix with its platform's suffix
(`.dylib` or `.so`), and every platform's dependency list is empty. -/
theorem gdnlib_descriptor_entries (name : String) (is_plugin : Bool)
    (hname : '/' ∉ name.data) :
    gdnlibNewEntries name is_plugin = gdnlibEntries name is_plugin ∧
    gdnlibNewDeps = gdnlibDeps ∧
    (∃ vOsx vWin vX11 vAndA vAndX,
      gdnlibEntries name is_plugin =
        [("OSX.64", vOsx), ("Windows.64", vWin), ("X11.64", vX11),
         ("Android.arm64-v8a", vAndA), ("Android.x86_64", vAndX)] ∧
      fileNameOf vOsx = "lib" ++ name ++ ".dylib" ∧
      fileNameOf vWin = name ++ ".dll" ∧
      fileNameOf vX11 = "lib" ++ name ++ ".so" ∧
      fileNameOf vAndA = "lib" ++ name ++ ".so" ∧
      fileNameOf vAndX = "lib" ++ name ++ ".so") ∧
    (∀ kv ∈ gdnlibDeps, kv.2 = ([] : List String)) ∧
    gdnlibDeps.map Prod.fst = (gdnlibEntries name is_plugin).map Prod.fst ∧
    (gdnlibEntries name is_plugin).length = 5 ∧
    ((gdnlibEntries name is_plugin).map Prod.fst).Nodup := by
  refine ⟨rfl, rfl, ⟨_, _, _, _, _, rfl, ?_, ?_, ?_, ?_, ?_⟩, ?_, ?_, ?_, ?_⟩
  · exact gdnlib_value_fileName (gdnlibBasePath name is_plugin)
      "/gdnative/bin/macos/lib" "/gdnative/bin/macos" "lib" ".dylib" name
      (by decide) hname (by decide) (by decide)
  · have h := gdnlib_value_fileName (gdnlibBasePath name is_plugin)
      "/gdnative/bin/windows/" "/gdnative/bin/windows" "" ".dll" name
      (by decide) hname (by decide) (by decide)
    rw [empty_string_append] at h
    exact h
  · exact gdnlib_value_fileName (gdnlibBasePath name is_plugin)
      "/gdnative/bin/linux/lib" "/gdnative/bin/linux" "lib" ".so" name
      (by decide) hname (by decide) (by decide)
  · exact gdnlib_value_fileName (gdnlibBasePath name is_plugin)
      "/gdnative/bin/android/aarch64-linux-android/lib"
      "/gdnative/bin/android/aarch64-linux-android" "lib" ".so" name
      (by decide) hname (by decide) (by decide)
  · exact gdnlib_value_fileName (gdnlibBasePath name is_plugin)
      "/gdnative/bin/android/x86_64-linux-android/lib"
      "/gdnative/bin/android/x86_64-linux-android" "lib" ".so" name
      (by decide) hname (by decide) (by decide)
  · intro kv hkv
    simp only [gdnlibDeps, List.mem_cons, List.mem_singleton] at hkv
    rcases hkv with rfl | rfl | rfl | rfl | rfl | h
    · rfl
    · rfl
    · rfl
    · rfl
    · rfl
    · simp at h
  · rfl
  · rfl
  · have hmap : (gdnlibEntries name is_plugin).map Prod.fst
        = ["OSX.64", "Windows.64", "X11.64", "Android.arm64-v8a", "Android.x86_64"] := rfl
    rw [hmap]
    decide

/-- C8 witness: the descriptor map for the concrete library
`platformer_modules`, non-plugin layout. -/
theorem gdnlib_descriptor_entries_witness :
    ('/' ∉ ("platformer_modules" : String).data) ∧
    (gdnlibNewEntries "platformer_modules" false = gdnlibEntries "platformer_modules" false ∧
    gdnlibNewDeps = gdnlibDeps ∧
    (∃ vOsx vWin vX11 vAndA vAndX,
      gdnlibEntries "platformer_modules" false =
        [("OSX.64", vOsx), ("Windows.64", vWin), ("X11.64", vX11),
         ("Android.arm64-v8a", vAndA), ("Android.x86_64", vAndX)] ∧
      fileNameOf vOsx = "lib" ++ "platformer_modules" ++ ".dylib" ∧
      fileNameOf vWin = "platformer_modules" ++ ".dll" ∧
      fileNameOf vX11 = "lib" ++ "platformer_modules" ++ ".so" ∧
      fileNameOf vAndA = "lib" ++ "platformer_modules" ++ ".so" ∧
      fileNameOf vAndX = "lib" ++ "platformer_modules" ++ ".so") ∧
    (∀ kv ∈ gdnlibDeps, kv.2 = ([] : List String)) ∧
    gdnlibDeps.map Prod.fst = (gdnlibEntries "platformer_modules" false).map Prod.fst ∧
    (gdnlibEntries "platformer_modules" false).length = 5 ∧
    ((gdnlibEntries "platformer_modules" false).map Prod.fst).Nodup) :=
  ⟨by decide, gdnlib_descriptor_entries "platformer_modules" false (by decide)⟩

/-- One module operation never changes the library name or the plugin
flag, and — on a plugin manifest — never lets a module whose snake-case
name equals the library's snake-case name into the modules list. -/
theorem applyModuleOp_preserves (libName : String) (cfg : Config) (op : ModuleOp)
    (h1 : cfg.name = libName) (h2 : cfg.is_plugin = true)
    (h3 : ∀ m ∈ cfg.modules, toSnakeCase m ≠ toSnakeCase libName) :
    (applyModuleOp cfg op).name = libName ∧
    (applyModuleOp cfg op).is_plugin = true ∧
    ∀ m ∈ (applyModuleOp cfg op).modules, toSnakeCase m ≠ toSnakeCase libName := by
  cases op with
  | add name =>
    simp only [applyModuleOp, add_module_to_config]
    by_cases hg : (cfg.is_plugin && (toSnakeCase name == toSnakeCase cfg.name)) = true
    · rw [if_pos hg]
      exact ⟨h1, h2, h3⟩
    · rw [if_neg hg]
      refine ⟨h1, h2, ?_⟩
      intro m hm
      simp only [List.mem_append, List.mem_singleton] at hm
      rcases hm with hm2 | hm2
      · exact h3 m hm2
      · subst hm2
        intro heq
        apply hg
        rw [h2, h1]
        simp [beq_iff_eq, heq]
  | remove name =>
    simp only [applyModuleOp]
    cases hrem : remove_module_from_config_if_exists name cfg with
    | error e => exact ⟨h1, h2, h3⟩
    | ok c =>
      unfold remove_module_from_config_if_exists at hrem
      by_cases hin : (!(is_module_in_config name cfg)) = true
      · rw [if_pos hin] at hrem
        exact absurd hrem (by simp)
      · rw [if_neg hin] at hrem
        have hc :
            ({ cfg with modules :=
                cfg.modules.eraseIdx (cfg.modules.findIdx (fun x => x == name)) } : Config)
              = c := by
          injection hrem
        refine ⟨?_, ?_, ?_⟩
        · rw [← hc]; exact h1
        · rw [← hc]; exact h2
        · intro m hm
          rw [← hc] at hm
          exact h3 m (List.eraseIdx_subset _ _ hm)

/-- The combined plugin-root invariant over any operation sequence. -/
theorem applyModuleOps_preserves (libName : String) (cfg : Config) (ops : List ModuleOp)
    (h1 : cfg.name = libName) (h2 : cfg.is_plugin = true)
    (h3 : ∀ m ∈ cfg.modules, toSnakeCase m ≠ toSnakeCase libName) :
    (applyModuleOps cfg ops).name = libName ∧
    (applyModuleOps cfg ops).is_plugin = true ∧
    ∀ m ∈ (applyModuleOps cfg ops).modules, toSnakeCase m ≠ toSnakeCase libName := by
  induction ops generalizing cfg with
  | nil => exact ⟨h1, h2, h3⟩
  | cons op rest ih =>
    have hstep := applyModuleOp_preserves libName cfg op h1 h2 h3
    exact ih (applyModuleOp cfg op) hstep.1 hstep.2.1 hstep.2.2

/-- C4.  On a plugin manifest, after any sequence of module add/remove
operations starting from the initial manifest, no entry of the modules
list canonicalizes (snake case) to the library identity; adding the
plugin-root module is a no-op that is not an error; and removing it by
any name that canonicalizes to the identity fails with the not-found
error. -/
theorem plugin_root_never_in_modules (libName dirName r : String) (ops : List ModuleOp)
    (hr : toSnakeCase r = toSnakeCase libName) :
    (∀ m ∈ (applyModuleOps (create_initial_config libName dirName true) ops).modules,
      toSnakeCase m ≠ toSnakeCase libName) ∧
    add_module_to_config r (applyModuleOps (create_initial_config libName dirName true) ops)
      = applyModuleOps (create_initial_config libName dirName true) ops ∧
    remove_module_from_config_if_exists r
        (applyModuleOps (create_initial_config libName dirName true) ops)
      = .error .notFound := by
  have hbase := applyModuleOps_preserves libName (create_initial_config libName dirName true)
    ops rfl rfl (by intro m hm; simp [create_initial_config] at hm)
  obtain ⟨hname, hplug, hinv⟩ := hbase
  have hnotin : is_module_in_config r
      (applyModuleOps (create_initial_config libName dirName true) ops) = false := by
    rw [is_module_in_config]
    rw [List.any_eq_false]
    intro m hm
    simp only [beq_iff_eq]
    intro heq
    exact hinv m hm (by rw [heq, hr])
  refine ⟨hinv, ?_, ?_⟩
  · rw [add_module_to_config, if_pos]
    rw [hplug, hname]
    simp [beq_iff_eq, hr]
  · rw [remove_module_from_config_if_exists, if_pos]
    rw [hnotin]
    rfl

/-- C4 witness: plugin library `MyPlugin`; create `Player`, attempt the
plugin root under the spelling `my_plugin` (silently skipped), destroy
`Player`; then the plugin root `MyPlugin` cannot be removed. -/
theorem plugin_root_never_in_modules_witness :
    toSnakeCase "MyPlugin" = toSnakeCase "MyPlugin" ∧
    ((∀ m ∈ (applyModuleOps (create_initial_config "MyPlugin" "game" true)
        [.add "Player", .add "my_plugin", .remove "Player"]).modules,
      toSnakeCase m ≠ toSnakeCase "MyPlugin") ∧
    add_module_to_config "MyPlugin"
        (applyModuleOps (create_initial_config "MyPlugin" "game" true)
          [.add "Player", .add "my_plugin", .remove "Player"])
      = applyModuleOps (create_initial_config "MyPlugin" "game" true)
          [.add "Player", .add "my_plugin", .remove "Player"] ∧
    remove_module_from_config_if_exists "MyPlugin"
        (applyModuleOps (create_initial_config "MyPlugin" "game" true)
          [.add "Player", .add "my_plugin", .remove "Player"])
      = .error .notFound) :=
  ⟨rfl, plugin_root_never_in_modules "MyPlugin" "game" "MyPlugin"
    [.add "Player", .add "my_plugin", .remove "Player"] rfl⟩

/-- Lowering an uppercase ASCII code yields its lowercase code. -/
theorem toNat_ofNat_lower (n : Nat) (h1 : 65 ≤ n) (h2 : n ≤ 90) :
    (Char.ofNat (n + 32)).toNat = n + 32 := by
  interval_cases n <;> decide

/-- ASCII lowercasing is idempotent per character. -/
theorem toLower_toLower (c : Char) :
    Char.toLower (Char.toLower c) = Char.toLower c := by
  by_cases h : c.toNat ≥ 65 ∧ c.toNat ≤ 90
  · have hc : Char.toLower c = Char.ofNat (c.toNat + 32) := by
      unfold Char.toLower
      rw [if_pos h]
    have ht : (Char.ofNat (c.toNat + 32)).toNat = c.toNat + 32 :=
      toNat_ofNat_lower c.toNat h.1 h.2
    have hcond : ¬((Char.ofNat (c.toNat + 32)).toNat ≥ 65 ∧
        (Char.ofNat (c.toNat + 32)).toNat ≤ 90) := by
      rw [ht]
      omega
    rw [hc]
    unfold Char.toLower
    rw [if_neg hcond]
  · have hc : Char.toLower c = c := by
      unfold Char.toLower
      rw [if_neg h]
    rw [hc, hc]

/-- ASCII lowercasing is idempotent per string. -/
theorem rustToLowercase_idem (s : String) :
    rustToLowercase (rustToLowercase s) = rustToLowercase s := by
  unfold rustToLowercase
  have hf : (Char.toLower ∘ Char.toLower) = Char.toLower := funext toLower_toLower
  show String.mk (List.map Char.toLower (List.map Char.toLower s.data)) = _
  rw [List.map_map, hf]

/-- One platform operation keeps every stored platform name lowercase. -/
theorem applyPlatformOp_lowercase (cfg : Config) (op : PlatformOp)
    (h : ∀ p ∈ cfg.platforms, rustToLowercase p = p) :
    ∀ p ∈ (applyPlatformOp cfg op).platforms, rustToLowercase p = p := by
  cases op with
  | add s =>
    simp only [applyPlatformOp]
    cases hadd : add_platform_to_config s cfg with
    | error e => exact h
    | ok c =>
      unfold add_platform_to_config at hadd
      by_cases hin : is_platform_in_config (rustToLowercase s) cfg = true
      · rw [if_pos hin] at hadd
        exact absurd hadd (by simp)
      · rw [if_neg hin] at hadd
        have hc : ({ cfg with platforms := cfg.platforms ++ [rustToLowercase s] } : Config)
            = c := by
          injection hadd
        intro p hp
        rw [← hc] at hp
        simp only [List.mem_append, List.mem_singleton] at hp
        rcases hp with hp | hp
        · exact h p hp
        · subst hp
          exact rustToLowercase_idem s
  | remove s =>
    simp only [applyPlatformOp]
    cases hrem : remove_platform_from_config_if_exists s cfg with
    | error e => exact h
    | ok c =>
      unfold remove_platform_from_config_if_exists at hrem
      by_cases hin : (!(is_platform_in_config (rustToLowercase s) cfg)) = true
      · rw [if_pos hin] at hrem
        exact absurd hrem (by simp)
      · rw [if_neg hin] at hrem
        have hc : ({ cfg with platforms :=
            (cfg.platforms.eraseIdx (cfg.platforms.findIdx (fun x => x == rustToLowercase s))) } : Config)
            = c := by
          injection hrem
        intro p hp
        rw [← hc] at hp
        exact h p (List.eraseIdx_subset _ _ hp)

/-- Every platform name a sequence of operations stores stays
lowercase. -/
theorem applyPlatformOps_lowercase (cfg : Config) (ops : List PlatformOp)
    (h : ∀ p ∈ cfg.platforms, rustToLowercase p = p) :
    ∀ p ∈ (applyPlatformOps cfg ops).platforms, rustToLowercase p = p := by
  induction ops generalizing cfg with
  | nil => exact h
  | cons op rest ih => exact ih (applyPlatformOp cfg op) (applyPlatformOp_lowercase cfg op h)

/-- C10 counterexample.  `add_platform_to_config` stores the lowercase
name `windows`, but the bare membership check `is_platform_in_config`
compares its argument verbatim: on the resulting manifest it answers
`false` for `Windows` and `true` for `windows`, so its outcome does
change when the argument's letter case is varied — refuting the claim
that the membership check lowercases its argument before comparing. -/
theorem is_platform_in_config_case_sensitive :
    add_platform_to_config "Windows" (create_initial_config "Foo" "Bar" false)
      = .ok { create_initial_config "Foo" "Bar" false with platforms := ["windows"] } ∧
    is_platform_in_config "Windows"
      { create_initial_config "Foo" "Bar" false with platforms := ["windows"] } = false ∧
    is_platform_in_config "windows"
      { create_initial_config "Foo" "Bar" false with platforms := ["windows"] } = true := by
  decide

/-- C10 (amended).  Every platform name stored by any operation
sequence is lowercase, and `add_platform_to_config` /
`remove_platform_from_config_if_exists` lowercase their argument before
every comparison, so their outcomes are unchanged under case variation
of the argument; the bare membership check `is_platform_in_config`,
however, compares verbatim (see the counterexample). -/
theorem platform_case_handling (s1 s2 libName dirName : String) (isPlugin : Bool)
    (cfg : Config) (ops : List PlatformOp)
    (h : rustToLowercase s1 = rustToLowercase s2) :
    (add_platform_to_config s1 cfg = add_platform_to_config s2 cfg ∧
     remove_platform_from_config_if_exists s1 cfg
       = remove_platform_from_config_if_exists s2 cfg) ∧
    (∀ p ∈ (applyPlatformOps (create_initial_config libName dirName isPlugin) ops).platforms,
      rustToLowercase p = p) := by
  constructor
  · constructor
    · unfold add_platform_to_config
      rw [h]
    · unfold remove_platform_from_config_if_exists
      rw [h]
  · exact applyPlatformOps_lowercase (create_initial_config libName dirName isPlugin) ops
      (by intro p hp; simp [create_initial_config] at hp)

/-- C10 witness: the case variants `LINUX` and `Linux` drive the add
and remove operations identically, and a concrete operation sequence
stores only lowercase names. -/
theorem platform_case_handling_witness :
    rustToLowercase "LINUX" = rustToLowercase "Linux" ∧
    ((add_platform_to_config "LINUX" samplePlayerConfig
        = add_platform_to_config "Linux" samplePlayerConfig ∧
      remove_platform_from_config_if_exists "LINUX" samplePlayerConfig
        = remove_platform_from_config_if_exists "Linux" samplePlayerConfig) ∧
    (∀ p ∈ (applyPlatformOps (create_initial_config "Foo" "Bar" false)
        [.add "Windows", .add "LINUX", .remove "windows"]).platforms,
      rustToLowercase p = p)) :=
  ⟨by decide, platform_case_handling "LINUX" "Linux" "Foo" "Bar" false samplePlayerConfig
    [.add "Windows", .add "LINUX", .remove "windows"] (by decide)⟩

/-- `splitNl` never returns the empty list. -/
theorem splitNl_ne_nil (cs : List Char) : splitNl cs ≠ [] := by
  induction cs with
  | nil => simp [splitNl]
  | cons c rest ih =>
    rcases hs : splitNl rest with _ | ⟨h, t⟩
    · exact absurd hs ih
    · by_cases hc : (c == '\n') = true
      · simp [splitNl, hs, hc]
      · have hc2 : (c == '\n') = false := by simpa using hc
        simp [splitNl, hs, hc2]

/-- No piece produced by `splitNl` contains a newline. -/
theorem mem_splitNl_no_nl (cs : List Char) : ∀ l ∈ splitNl cs, '\n' ∉ l := by
  induction cs with
  | nil =>
    intro l hl
    simp only [splitNl, List.mem_singleton] at hl
    subst hl
    simp
  | cons c rest ih =>
    intro l hl
    rcases hs : splitNl rest with _ | ⟨h, t⟩
    · exact absurd hs (splitNl_ne_nil rest)
    · rw [hs] at ih
      by_cases hc : (c == '\n') = true
      · simp only [splitNl, hs, hc, if_true] at hl
        rcases List.mem_cons.mp hl with rfl | hm
        · simp
        · exact ih l hm
      · have hc2 : (c == '\n') = false := by simpa using hc
        have hcne : ¬ c = '\n' := by simpa using hc2
        simp only [splitNl, hs, hc2, Bool.false_eq_true, if_false] at hl
        rcases List.mem_cons.mp hl with rfl | hm
        · intro hmem
          rcases List.mem_cons.mp hmem with heq | hmem2
          · exact hcne heq.symm
          · exact ih h (List.mem_cons_self h t) hmem2
        · exact ih l (List.mem_cons_of_mem h hm)

/-- A newline-free list is one whole piece. -/
theorem splitNl_no_nl (cs : List Char) (h : '\n' ∉ cs) : splitNl cs = [cs] := by
  induction cs with
  | nil => simp [splitNl]
  | cons c rest ih =>
    have hc2 : (c == '\n') = false := by
      simp only [beq_eq_false_iff_ne, ne_eq]
      intro hcc
      exact h (by rw [hcc]; exact List.mem_cons_self _ _)
    have hrest : '\n' ∉ rest := fun hm => h (List.mem_cons_of_mem _ hm)
    simp [splitNl, ih hrest, hc2]

/-- Splitting `l ++ '\n' :: cs` peels off the newline-free piece `l`. -/
theorem splitNl_append (l cs : List Char) (hl : '\n' ∉ l) :
    splitNl (l ++ '\n' :: cs) = l :: splitNl cs := by
  induction l with
  | nil =>
    rcases hs : splitNl cs with _ | ⟨h, t⟩
    · exact absurd hs (splitNl_ne_nil cs)
    · simp [splitNl, hs]
  | cons c l ih =>
    have hc2 : (c == '\n') = false := by
      simp only [beq_eq_false_iff_ne, ne_eq]
      intro hcc
      exact hl (by rw [hcc]; exact List.mem_cons_self _ _)
    have hl2 : '\n' ∉ l := fun hm => hl (List.mem_cons_of_mem _ hm)
    show splitNl (c :: (l ++ '\n' :: cs)) = (c :: l) :: splitNl cs
    simp [splitNl, ih hl2, hc2]

/-- Splitting a join of newline-free pieces recovers the pieces. -/
theorem splitNl_joinNl (L : List (List Char)) (hL : ∀ l ∈ L, '\n' ∉ l) (hne : L ≠ []) :
    splitNl (joinNl L) = L := by
  induction L with
  | nil => exact absurd rfl hne
  | cons l rest ih =>
    rcases rest with _ | ⟨l2, rest2⟩
    · show splitNl (joinNl [l]) = [l]
      exact splitNl_no_nl l (hL l (List.mem_cons_self _ _))
    · show splitNl (l ++ '\n' :: joinNl (l2 :: rest2)) = l :: l2 :: rest2
      rw [splitNl_append l _ (hL l (List.mem_cons_self _ _))]
      rw [ih (fun x hx => hL x (List.mem_cons_of_mem _ hx)) (by simp)]

/-- `rustLines` of a join of newline-free pieces: the trailing empty
piece (if any) is dropped and each piece loses a trailing carriage
return. -/
theorem rustLines_joinNl (L : List (List Char)) (hL : ∀ l ∈ L, '\n' ∉ l) :
    rustLines (joinNl L) = (dropTrailingEmpty L).map stripCr := by
  rcases eq_or_ne L [] with rfl | hne
  · decide
  · unfold rustLines
    rw [splitNl_joinNl L hL hne]

/-- Stripping a trailing carriage return only removes characters. -/
theorem stripCr_subset (l : List Char) : stripCr l ⊆ l := by
  unfold stripCr
  by_cases h : (l.getLast? == some '\r') = true
  · rw [if_pos h]
    exact List.dropLast_subset l
  · rw [if_neg h]
    exact List.Subset.refl l

/-- Dropping the trailing empty piece only removes pieces. -/
theorem dropTrailingEmpty_subset (L : List (List Char)) : dropTrailingEmpty L ⊆ L := by
  unfold dropTrailingEmpty
  by_cases h : (L.getLast? == some ([] : List Char)) = true
  · rw [if_pos h]
    exact List.dropLast_subset L
  · rw [if_neg h]
    exact List.Subset.refl L

/-- No line returned by `rustLines` contains a newline. -/
theorem mem_rustLines_no_nl (cs : List Char) : ∀ l ∈ rustLines cs, '\n' ∉ l := by
  intro l hl
  unfold rustLines at hl
  rcases List.mem_map.mp hl with ⟨x, hx, rfl⟩
  have hx2 : x ∈ splitNl cs := dropTrailingEmpty_subset _ hx
  have hnl := mem_splitNl_no_nl cs x hx2
  intro hmem
  exact hnl (stripCr_subset x hmem)

/-- Trimming ignores a stripped trailing carriage return. -/
theorem trim_stripCr (l : List Char) : trimChars (stripCr l) = trimChars l := by
  unfold stripCr
  by_cases h : (l.getLast? == some '\r') = true
  · rw [if_pos h]
    have hlast : l.getLast? = some '\r' := by simpa using h
    have hne : l ≠ [] := by
      intro hh
      rw [hh] at hlast
      simp at hlast
    have hg : l.getLast hne = '\r' := by
      have := List.getLast?_eq_getLast l hne
      rw [hlast] at this
      exact (Option.some.inj this).symm
    have hdecomp : l = l.dropLast ++ ['\r'] := by
      conv_lhs => rw [← List.dropLast_concat_getLast hne]
      rw [hg]
    conv_rhs => rw [hdecomp]
    unfold trimChars trimRight
    rw [List.reverse_append]
    simp [isWsChar, List.dropWhile]
  · rw [if_neg h]

/-- Every line of one filter pass's output trims like some line of its
input that does not match the query. -/
theorem mem_rustLines_removeLinesMatching (q cs : List Char) (l : List Char)
    (hl : l ∈ rustLines (removeLinesMatching q cs)) :
    ∃ x ∈ rustLines cs, trimChars l = trimChars x ∧ trimChars x ≠ q := by
  unfold removeLinesMatching at hl
  have hfil : ∀ y ∈ (rustLines cs).filter (fun line => !(trimChars line == q)), '\n' ∉ y := by
    intro y hy
    exact mem_rustLines_no_nl cs y (List.mem_of_mem_filter hy)
  rw [rustLines_joinNl _ hfil] at hl
  rcases List.mem_map.mp hl with ⟨x, hx, rfl⟩
  have hx2 : x ∈ (rustLines cs).filter (fun line => !(trimChars line == q)) :=
    dropTrailingEmpty_subset _ hx
  have hx3 := List.mem_filter.mp hx2
  refine ⟨x, hx3.1, trim_stripCr x, ?_⟩
  have := hx3.2
  simpa using this

/-- After the destroy edit, no remaining line trims to the module's
declaration statement or to either registration statement. -/
theorem remove_module_from_lib_no_match (cs : List Char) (s p : String) :
    ∀ l ∈ rustLines (remove_module_from_lib cs s p),
      trimChars l ≠ modQuery s ∧ trimChars l ≠ handleQuery s p ∧
      trimChars l ≠ toolHandleQuery s p := by
  intro l hl
  unfold remove_module_from_lib at hl
  rcases mem_rustLines_removeLinesMatching _ _ _ hl with ⟨x2, hx2, heq2, hne2⟩
  rcases mem_rustLines_removeLinesMatching _ _ _ hx2 with ⟨x1, hx1, heq1, hne1⟩
  rcases mem_rustLines_removeLinesMatching _ _ _ hx1 with ⟨x0, _hx0, heq0, hne0⟩
  refine ⟨?_, ?_, ?_⟩
  · rw [heq2, heq1, heq0]
    exact hne0
  · rw [heq2, heq1]
    exact hne1
  · rw [heq2]
    exact hne2

/-- A filter pass whose query matches no line keeps every line. -/
theorem removeLinesMatching_no_match (q cs : List Char)
    (hq : ∀ l ∈ rustLines cs, trimChars l ≠ q) :
    removeLinesMatching q cs = joinNl (rustLines cs) := by
  unfold removeLinesMatching
  congr 1
  rw [List.filter_eq_self]
  intro a ha
  simpa using hq a ha

/-- Rejoining and re-splitting clean lines (no inner newline, no
trailing carriage return) only drops the trailing empty line. -/
theorem rustLines_joinNl_clean (L : List (List Char))
    (hnl : ∀ l ∈ L, '\n' ∉ l) (hcr : ∀ l ∈ L, stripCr l = l) :
    rustLines (joinNl L) = dropTrailingEmpty L := by
  rw [rustLines_joinNl L hnl]
  have hmap : ∀ l ∈ dropTrailingEmpty L, stripCr l = l :=
    fun l hl => hcr l (dropTrailingEmpty_subset L hl)
  rw [List.map_congr_left hmap]
  simp

/-- C9 (amended).  On an entry-point text none of whose lines trims to
the target module's declaration statement or to either registration
statement (and whose lines carry no stray trailing carriage return),
the destroy edit is total — it surfaces no error — and leaves every
line in place except that each of its three split/rejoin passes may
drop one trailing empty line: the resulting line list is exactly the
original one with up to three trailing empty lines removed.  In
particular no hand-edited non-matching line is ever removed. -/
theorem remove_module_edit_silent_no_match (cs : List Char) (s p : String)
    (hq : ∀ l ∈ rustLines cs,
      trimChars l ≠ modQuery s ∧ trimChars l ≠ handleQuery s p ∧
      trimChars l ≠ toolHandleQuery s p)
    (hcr : ∀ l ∈ rustLines cs, stripCr l = l) :
    rustLines (remove_module_from_lib cs s p)
      = dropTrailingEmpty (dropTrailingEmpty (dropTrailingEmpty (rustLines cs))) := by
  have hnl0 := mem_rustLines_no_nl cs
  -- pass 1: the mod-query filter keeps everything
  have h1 : removeLinesMatching (modQuery s) cs = joinNl (rustLines cs) :=
    removeLinesMatching_no_match _ cs (fun l hl => (hq l hl).1)
  have hL1 : rustLines (removeLinesMatching (modQuery s) cs)
      = dropTrailingEmpty (rustLines cs) := by
    rw [h1]
    exact rustLines_joinNl_clean _ hnl0 hcr
  have hsub1 : ∀ l ∈ rustLines (removeLinesMatching (modQuery s) cs), l ∈ rustLines cs := by
    intro l hl
    rw [hL1] at hl
    exact dropTrailingEmpty_subset _ hl
  -- pass 2: the handle-query filter keeps everything
  have h2 : removeLinesMatching (handleQuery s p) (removeLinesMatching (modQuery s) cs)
      = joinNl (rustLines (removeLinesMatching (modQuery s) cs)) :=
    removeLinesMatching_no_match _ _ (fun l hl => (hq l (hsub1 l hl)).2.1)
  have hL2 : rustLines (removeLinesMatching (handleQuery s p)
        (removeLinesMatching (modQuery s) cs))
      = dropTrailingEmpty (dropTrailingEmpty (rustLines cs)) := by
    rw [h2, rustLines_joinNl_clean _ (mem_rustLines_no_nl _)
      (fun l hl => hcr l (hsub1 l hl)), hL1]
  have hsub2 : ∀ l ∈ rustLines (removeLinesMatching (handleQuery s p)
      (removeLinesMatching (modQuery s) cs)), l ∈ rustLines cs := by
    intro l hl
    rw [hL2] at hl
    exact dropTrailingEmpty_subset _ (dropTrailingEmpty_subset _ hl)
  -- pass 3: the tool-query filter keeps everything
  unfold remove_module_from_lib
  have h3 : removeLinesMatching (toolHandleQuery s p)
        (removeLinesMatching (handleQuery s p) (removeLinesMatching (modQuery s) cs))
      = joinNl (rustLines (removeLinesMatching (handleQuery s p)
          (removeLinesMatching (modQuery s) cs))) :=
    removeLinesMatching_no_match _ _ (fun l hl => (hq l (hsub2 l hl)).2.2)
  rw [h3, rustLines_joinNl_clean _ (mem_rustLines_no_nl _)
    (fun l hl => hcr l (hsub2 l hl)), hL2]

/-- C9 counterexample.  On the text `"fn init(handle: InitHandle) {}\n\n"`
no line trims to any of the module `player`'s three statements, yet the
destroy edit does not leave the line set unchanged: the empty line is a
line of the input but not of the output (the rejoin drops it), refuting
the claim as stated. -/
theorem remove_module_edit_changes_line_set :
    (∀ l ∈ rustLines ("fn init(handle: InitHandle) {}\n\n").data,
      trimChars l ≠ modQuery "player" ∧ trimChars l ≠ handleQuery "player" "Player" ∧
      trimChars l ≠ toolHandleQuery "player" "Player") ∧
    ([] : List Char) ∈ rustLines ("fn init(handle: InitHandle) {}\n\n").data ∧
    ([] : List Char) ∉
      rustLines (remove_module_from_lib ("fn init(handle: InitHandle) {}\n\n").data
        "player" "Player") := by
  decide

/-- C9 witness: a pristine generated entry-point with no `player`
lines; the edit keeps its line list intact (it has no trailing empty
lines to drop). -/
theorem remove_module_edit_silent_no_match_witness :
    (∀ l ∈ rustLines sampleLibText,
      trimChars l ≠ modQuery "player" ∧ trimChars l ≠ handleQuery "player" "Player" ∧
      trimChars l ≠ toolHandleQuery "player" "Player") ∧
    (∀ l ∈ rustLines sampleLibText, stripCr l = l) ∧
    rustLines (remove_module_from_lib sampleLibText "player" "Player")
      = dropTrailingEmpty (dropTrailingEmpty (dropTrailingEmpty (rustLines sampleLibText))) :=
  ⟨by decide, by decide,
   remove_module_edit_silent_no_match sampleLibText "player" "Player"
     (by decide) (by decide)⟩

/-- The first occurrence of a freshly appended element is at the end. -/
theorem findIdx_append_self (l : List String) (x : String) (hx : x ∉ l) :
    (l ++ [x]).findIdx (fun y => y == x) = l.length := by
  induction l with
  | nil => simp [List.findIdx_cons]
  | cons a l ih =>
    have ha : (a == x) = false := by
      simp only [beq_eq_false_iff_ne, ne_eq]
      intro hh
      exact hx (by rw [hh]; exact List.mem_cons_self _ _)
    have hx2 : x ∉ l := fun hm => hx (List.mem_cons_of_mem _ hm)
    simp [List.findIdx_cons, ha, ih hx2]

/-- Erasing the freshly appended last element restores the list. -/
theorem eraseIdx_append_length (l : List String) (x : String) :
    (l ++ [x]).eraseIdx l.length = l := by
  induction l with
  | nil => rfl
  | cons a l ih => simp [List.eraseIdx, ih]

/-- A removed file path is gone. -/
theorem fsRemove_not_mem (files : List String) (path : String) :
    path ∉ fsRemove files path := by
  unfold fsRemove
  intro h
  have := (List.mem_filter.mp h).2
  simp at this

/-- Creating a genuinely new module appends exactly it to the
manifest. -/
theorem command_create_config (st : ProjectState) (name : String)
    (hPl : st.config.is_plugin = true → toSnakeCase name ≠ toSnakeCase st.config.name) :
    (command_create name st).config
      = { st.config with modules := st.config.modules ++ [name] } := by
  show add_module_to_config name st.config = _
  unfold add_module_to_config
  rw [if_neg]
  intro hand
  rw [Bool.and_eq_true] at hand
  exact hPl hand.1 (by simpa using hand.2)

/-- Destroying the module just created restores the manifest exactly. -/
theorem destroy_after_create_config (st : ProjectState) (name : String)
    (hP : toPascalCase name = name)
    (hM : name ∉ st.config.modules)
    (hPl : st.config.is_plugin = true → toSnakeCase name ≠ toSnakeCase st.config.name) :
    remove_module_from_config_if_exists (toPascalCase name) (command_create name st).config
      = .ok st.config := by
  rw [command_create_config st name hPl, hP]
  unfold remove_module_from_config_if_exists
  have hin : is_module_in_config name
      ({ st.config with modules := st.config.modules ++ [name] } : Config) = true := by
    simp [is_module_in_config]
  rw [if_neg (by rw [hin]; simp)]
  show Except.ok _ = Except.ok st.config
  congr 1
  show ({ st.config with modules :=
    ((st.config.modules ++ [name]).eraseIdx
      ((st.config.modules ++ [name]).findIdx (fun x => x == name))) } : Config) = st.config
  rw [findIdx_append_self st.config.modules name hM,
    eraseIdx_append_length st.config.modules name]

/-- A successful manifest removal determines the whole destroy
result. -/
theorem command_destroy_ok (name : String) (st1 : ProjectState) (cfg : Config)
    (h : remove_module_from_config_if_exists (toPascalCase name) st1.config = .ok cfg) :
    command_destroy name st1 = .ok
      { config := cfg,
        libText := remove_module_from_lib st1.libText (toSnakeCase name) (toPascalCase name),
        srcFiles := fsRemove st1.srcFiles ("src/" ++ toSnakeCase name ++ ".rs"),
        godotFiles := fsRemove st1.godotFiles (gdnsPath cfg (toSnakeCase name)) } := by
  unfold command_destroy
  simp only [h]

set_option maxHeartbeats 2000000 in
/-- C1.  Create-then-destroy round trip (`command_create` followed by
`command_destroy`, `src/commands.rs`) for a valid module name — pascal
cased (as the CLI requires), not already tracked, and not the plugin
root: the destroy succeeds, the manifest's modules list equals its
pre-creation value, the entry-point afterwards has zero lines trimming
to the module's declaration (`mod`) statement or to either registration
(`handle`) statement, and the module's descriptor (`.gdns`) file no
longer exists. -/
theorem create_destroy_roundtrip (st : ProjectState) (name : String)
    (hP : toPascalCase name = name)
    (hM : name ∉ st.config.modules)
    (hPl : st.config.is_plugin = true → toSnakeCase name ≠ toSnakeCase st.config.name) :
    ∃ st2, command_destroy name (command_create name st) = .ok st2 ∧
      st2.config.modules = st.config.modules ∧
      (∀ l ∈ rustLines st2.libText,
        trimChars l ≠ modQuery (toSnakeCase name) ∧
        trimChars l ≠ handleQuery (toSnakeCase name) (toPascalCase name) ∧
        trimChars l ≠ toolHandleQuery (toSnakeCase name) (toPascalCase name)) ∧
      gdnsPath st.config (toSnakeCase name) ∉ st2.godotFiles := by
  have hrem := destroy_after_create_config st name hP hM hPl
  refine ⟨_, command_destroy_ok name (command_create name st) st.config hrem, rfl, ?_, ?_⟩
  · exact remove_module_from_lib_no_match (command_create name st).libText
      (toSnakeCase name) (toPascalCase name)
  · exact fsRemove_not_mem (command_create name st).godotFiles
      (gdnsPath st.config (toSnakeCase name))

/-- C1 witness: create then destroy the module `Player` on a fresh
non-plugin project. -/
theorem create_destroy_roundtrip_witness :
    toPascalCase "Player" = "Player" ∧
    "Player" ∉ sampleFreshState.config.modules ∧
    (sampleFreshState.config.is_plugin = true →
      toSnakeCase "Player" ≠ toSnakeCase sampleFreshState.config.name) ∧
    (∃ st2, command_destroy "Player" (command_create "Player" sampleFreshState) = .ok st2 ∧
      st2.config.modules = sampleFreshState.config.modules ∧
      (∀ l ∈ rustLines st2.libText,
        trimChars l ≠ modQuery (toSnakeCase "Player") ∧
        trimChars l ≠ handleQuery (toSnakeCase "Player") (toPascalCase "Player") ∧
        trimChars l ≠ toolHandleQuery (toSnakeCase "Player") (toPascalCase "Player")) ∧
      gdnsPath sampleFreshState.config (toSnakeCase "Player") ∉ st2.godotFiles) :=
  ⟨by decide, by decide, by decide,
   create_destroy_roundtrip sampleFreshState "Player" (by decide) (by decide) (by decide)⟩

/-- With `is_first` set, the match loop returns the first match's end
(or the seed when there is no match). -/
theorem insertLoopPos_first (ms : List (Nat × Nat)) (pos : Nat) :
    insertLoopPos ms true pos = (ms.head?.map Prod.snd).getD pos := by
  cases ms <;> simp [insertLoopPos]

/-- Without `is_first`, the match loop returns the last match's end
(or the seed when there is no match). -/
theorem insertLoopPos_last (ms : List (Nat × Nat)) (pos : Nat) :
    insertLoopPos ms false pos = (ms.getLast?.map Prod.snd).getD pos := by
  induction ms generalizing pos with
  | nil => simp [insertLoopPos]
  | cons m rest ih =>
    cases rest with
    | nil => simp [insertLoopPos]
    | cons r rs =>
      show insertLoopPos (r :: rs) false m.2 = _
      rw [ih m.2, List.getLast?_cons_cons]
      rcases hgl : (r :: rs).getLast? with _ | x
      · simp at hgl
      · simp [hgl]

/-- C2 (amended).  `add_module_to_lib` places the declaration statement
at the end of the last match of the declaration pattern `mod.*;` (or at
offset 0 when there is none); and it places the registration statement
immediately after the opening of the initialization function body
(the first match of `init.*\{`) when the manifest's modules list is
empty, and otherwise immediately after the end of the FIRST existing
registration-pattern match (`handle.*;`) — not the last, because the
code passes `is_first = true` to `get_insert_location` in that branch. -/
theorem add_module_to_lib_insert_offsets (s p : String) (modules : List String)
    (cs : List Char) (is_plugin : Bool) :
    add_module_to_lib s p modules cs is_plugin =
      (let c1 := insertStrAt cs
        (((findAllMatches modPattern cs).getLast?.map Prod.snd).getD 0) (modLineFor s);
      insertStrAt c1
        (if modules.length == 0 then
          ((findAllMatches initPattern c1).head?.map Prod.snd).getD 0
        else
          ((findAllMatches handlePattern c1).head?.map Prod.snd).getD 0)
        (handleLineFor s p is_plugin)) := by
  unfold add_module_to_lib get_insert_location
  by_cases h : (modules.length == 0) = true
  · simp only [h, if_true, insertLoopPos_first, insertLoopPos_last]
  · have h2 : (modules.length == 0) = false := by simpa using h
    simp only [h2, Bool.false_eq_true, if_false, insertLoopPos_first, insertLoopPos_last]

/-- C2 counterexample.  On an entry-point with two existing
registration lines (modules list non-empty), the code's insertion
offset is the end of the first registration match, which differs from
the end of the last one; the produced text is not the text the claim
describes (insertion after the last existing registration line). -/
theorem add_module_to_lib_not_after_last_handle :
    (add_module_to_lib "c" "C" ["A"]
        ("mod a;\nfn init(handle: InitHandle) \x7b\nhandle.add_class::<a::A>();\nhandle.add_class::<b::B>();\n\x7d\n").data
        false
      ≠ insertStrAt
          (insertStrAt
            ("mod a;\nfn init(handle: InitHandle) \x7b\nhandle.add_class::<a::A>();\nhandle.add_class::<b::B>();\n\x7d\n").data
            (((findAllMatches modPattern
              ("mod a;\nfn init(handle: InitHandle) \x7b\nhandle.add_class::<a::A>();\nhandle.add_class::<b::B>();\n\x7d\n").data).getLast?.map
                Prod.snd).getD 0)
            (modLineFor "c"))
          (((findAllMatches handlePattern
            (insertStrAt
              ("mod a;\nfn init(handle: InitHandle) \x7b\nhandle.add_class::<a::A>();\nhandle.add_class::<b::B>();\n\x7d\n").data
              (((findAllMatches modPattern
                ("mod a;\nfn init(handle: InitHandle) \x7b\nhandle.add_class::<a::A>();\nhandle.add_class::<b::B>();\n\x7d\n").data).getLast?.map
                  Prod.snd).getD 0)
              (modLineFor "c"))).getLast?.map Prod.snd).getD 0)
          (handleLineFor "c" "C" false)) := by
  decide
